import Mathlib

/-
Verification of the auto-rest schema-to-REST synthesis engine.

This file shallowly embeds the Python modules of the `auto_rest` package
(params.py, dependencies.py, handlers.py, interfaces.py, models.py,
queries.py, routers.py) as executable Lean definitions and proves
properties of them.  Python values are modelled by `PyVal`, Python type
annotations by `PyType`, HTTP response headers by an association list
written in insertion order (mirroring starlette's MutableHeaders), and
SQLAlchemy `Select` objects by a declarative record of the clauses that
have been attached to them.
-/

namespace AutoRest

/-- A Python runtime value, restricted to the shapes exercised by the
API handlers: `None`, integers, strings and booleans. -/
inductive PyVal where
  | vnone
  | vint (n : Int)
  | vstr (s : String)
  | vbool (b : Bool)
  deriving DecidableEq, Repr

/-- Python truthiness (`bool(v)`): `None`, `0`, `""` and `False` are falsy. -/
def PyVal.truthy : PyVal → Bool
  | .vnone => false
  | .vint n => n != 0
  | .vstr s => s != ""
  | .vbool b => b

/-- A plain Python class, as returned by `col.type.python_type` (never a
union type). -/
inductive PyBase where
  | intB
  | strB
  | boolB
  deriving DecidableEq, Repr

/-- A Python type annotation as used by the pydantic interfaces: `Any`
(for driver types raising NotImplementedError), a plain base class, or
the nullable widening `T | None` of a base class. -/
inductive PyType where
  | anyT
  | baseT (b : PyBase)
  | optionalT (b : PyBase)
  deriving DecidableEq, Repr

/-- Whether a type annotation is the nullable widening `T | None`. -/
def PyType.isOptional : PyType → Bool
  | .optionalT _ => true
  | _ => false

/-- Response headers, kept as an association list in insertion order.
Starlette's MutableHeaders replaces an existing key in place and appends
a new key at the end.  The value slot is `Option String` because the
assignment interface receives the raw Python value, which may be `None`;
a `None` assignment raises inside starlette (see `headerSet`), so every
stored value is in fact a string. -/
abbrev Headers := List (String × Option String)

/-- Keyed in-place assignment on an association list: replace the first
entry with the given key, else append a new entry at the end. -/
def assocSet {β : Type} (l : List (String × β)) (k : String) (v : β) :
    List (String × β) :=
  match l with
  | [] => [(k, v)]
  | (k0, v0) :: rest =>
      if k0 = k then (k, v) :: rest else (k0, v0) :: assocSet rest k v

/-- Assignment `headers[key] = value` (starlette MutableHeaders semantics:
replace the first matching key in place, else append). -/
def setHeader (h : Headers) (k : String) (v : Option String) : Headers :=
  assocSet h k v

/-- Python `str(x)` for an optional integer (`str(None) = "None"`). -/
def pyStrOfOptInt : Option Int → String
  | none => "None"
  | some n => toString n

/-- Sort direction of an attached ORDER BY clause. -/
inductive SortDir where
  | asc
  | desc
  deriving DecidableEq, Repr

/-- A SQLAlchemy `Select` object, modelled declaratively: the selected
column names, the attached ORDER BY clauses (in attachment order), and the
attached LIMIT / OFFSET values.  SQL semantics order the rows before the
LIMIT/OFFSET slice is taken, regardless of the order in which the clauses
were attached to the object. -/
structure SelectQuery where
  columns : List String
  orderClauses : List (String × SortDir)
  limitVal : Option Int
  offsetVal : Option Int
  deriving DecidableEq, Repr

/-- `select(model)`: a base query over the model's columns with no
ordering or pagination clauses attached. -/
def selectTable (cols : List String) : SelectQuery :=
  { columns := cols, orderClauses := [], limitVal := none, offsetVal := none }

/-- The dictionary returned by `params.get_pagination_params`
(`{"limit": ..., "offset": ...}`); `dict.get` yields `None` for a
missing key, hence the `Option` fields. -/
structure PaginationParams where
  limit : Option Int
  offset : Option Int
  deriving DecidableEq, Repr

/-- The dictionary returned by `params.get_ordering_params`
(`{"order_by": ..., "direction": ...}`). -/
structure OrderingParams where
  order_by : Option String
  direction : Option String
  deriving DecidableEq, Repr

/-- Python `x or d` for an optional integer (`None` and `0` are falsy). -/
def pyOrInt (x : Option Int) (d : Int) : Int :=
  match x with
  | none => d
  | some n => if n = 0 then d else n

/-- `params.apply_pagination_params` (params.py): writes the
X-Pagination-Limit / X-Pagination-Offset headers, and either marks
pagination as not applied (limit of `0` or `None`) returning the query
unchanged, or marks it applied and attaches `offset`/`limit`. -/
def apply_pagination_params (query : SelectQuery) (params : PaginationParams)
    (response : Headers) : SelectQuery × Headers :=
  let limit := params.limit
  let offset := params.offset
  let response := setHeader response "X-Pagination-Limit" (some (pyStrOfOptInt limit))
  let response := setHeader response "X-Pagination-Offset" (some (pyStrOfOptInt offset))
  if limit = some 0 ∨ limit = none then
    (query, setHeader response "X-Pagination-Applied" (some "false"))
  else
    let response := setHeader response "X-Pagination-Applied" (some "true")
    ({ query with offsetVal := some (pyOrInt offset 0), limitVal := limit }, response)

/-- The header assignment `response.headers[key] = value` with a raw
Python value, as starlette performs it: MutableHeaders.__setitem__ runs
`value.encode("latin-1")`, so assigning a string stores it while
assigning `None` raises AttributeError. -/
def headerSet (response : Headers) (k : String) (v : Option String) :
    Except String Headers :=
  match v with
  | some s => .ok (setHeader response k (some s))
  | none => .error "AttributeError: NoneType object has no attribute encode"

/-- `params.apply_ordering_params` (params.py): writes the raw `order_by`
and `direction` values to the X-Order-By / X-Order-Direction headers —
which raises AttributeError through the starlette header encode when the
written value is `None` — then an X-Order-Applied header first set to
"true" and overwritten with "false" when `order_by` is not a column of
the query; in that case the query is returned unmodified, otherwise an
ORDER BY clause is attached (descending only for the exact direction
"desc").  The `none` arm of the final test mirrors the source's
`order_by not in query.columns.keys()` check, which also covers `None`,
but that arm is reachable only syntactically: an absent `order_by` has
already raised at the X-Order-By write. -/
def apply_ordering_params (query : SelectQuery) (params : OrderingParams)
    (response : Headers) : Except String (SelectQuery × Headers) := do
  let order_by := params.order_by
  let direction := params.direction
  let response ← headerSet response "X-Order-By" order_by
  let response ← headerSet response "X-Order-Direction" direction
  let response := setHeader response "X-Order-Applied" (some "true")
  match order_by with
  | none => pure (query, setHeader response "X-Order-Applied" (some "false"))
  | some col =>
      if col ∈ query.columns then
        if direction = some "desc" then
          pure ({ query with orderClauses := query.orderClauses ++ [(col, .desc)] }, response)
        else
          pure ({ query with orderClauses := query.orderClauses ++ [(col, .asc)] }, response)
      else
        pure (query, setHeader response "X-Order-Applied" (some "false"))

/-- The query/header pipeline of `handlers.list_records` (handlers.py,
`create_list_records_handler`): build the base select, then apply the
pagination parameters, then apply the ordering parameters — in exactly
the order the source performs these calls.  An exception raised by the
ordering step propagates out of the handler. -/
def list_records_build (cols : List String) (pg : PaginationParams)
    (op : OrderingParams) (response : Headers) :
    Except String (SelectQuery × Headers) :=
  let query := selectTable cols
  let qr := apply_pagination_params query pg response
  apply_ordering_params qr.1 op qr.2

/-- Modelled from the spec (§4.5 LIST): the same pipeline with the two
apply steps in the order the specification prescribes — ordering first,
then pagination.  Used only to compare against `list_records_build`. -/
def ordering_first_build (cols : List String) (pg : PaginationParams)
    (op : OrderingParams) (response : Headers) :
    Except String (SelectQuery × Headers) := do
  let query := selectTable cols
  let qr ← apply_ordering_params query op response
  pure (apply_pagination_params qr.1 pg qr.2)

/-- Normalization of one Python slice index: a negative index counts from
the end (clamped below at 0), a non-negative index is clamped above at the
list length. -/
def pyNormIndex (n : Nat) (i : Int) : Nat :=
  if i < 0 then ((n : Int) + i).toNat else min i.toNat n

/-- Python list slicing `l[a:b]` with integer (possibly negative) bounds. -/
def pySlice {α : Type} (l : List α) (a b : Int) : List α :=
  let n := l.length
  let lo := pyNormIndex n a
  let hi := pyNormIndex n b
  (l.drop lo).take (hi - lo)

/-- The dictionary returned by `dependencies.get_pagination_params`
(`{"page": ..., "per_page": ...}`). -/
structure DepPaginationParams where
  page : Int
  per_page : Int
  deriving DecidableEq, Repr

/-- `dependencies.apply_pagination_params` (dependencies.py): slices an
already-materialized list of records.  Raises ValueError for
`per_page <= 0`; returns the full list, with no header writes, for page
`0`; otherwise computes the slice bounds (negative pages counting from the
end), writes the x-page / x-per-page / x-total-pages / x-total-count
headers and returns the Python slice `items[start:end]`. -/
def dep_apply_pagination_params {α : Type} (items : List α)
    (pagination : DepPaginationParams) (response : Headers) :
    Except String (List α × Headers) :=
  let page := pagination.page
  let per_page := pagination.per_page
  if per_page ≤ 0 then
    .error "The per_page argument must be greater than 0."
  else
    let total_count : Int := items.length
    let total_pages : Int := (total_count + per_page - 1) / per_page
    if page = 0 then
      .ok (items, response)
    else
      let start : Int :=
        if 0 < page then (page - 1) * per_page else (total_pages + page) * per_page
      let stop : Int := start + per_page
      let response := setHeader response "x-page" (some (toString page))
      let response := setHeader response "x-per-page" (some (toString per_page))
      let response := setHeader response "x-total-pages" (some (toString total_pages))
      let response := setHeader response "x-total-count" (some (toString total_count))
      .ok (pySlice items start stop, response)

/-- `dependencies.apply_ordering_params` (dependencies.py): the historical
ORM-query variant.  It takes no response object (so it can write no
headers); with a falsy `order_by` or an unknown column name it returns the
query unmodified, otherwise it attaches one ORDER BY clause. -/
def dep_apply_ordering_params (query : SelectQuery) (modelCols : List String)
    (ordering_params : OrderingParams) : SelectQuery :=
  match ordering_params.order_by with
  | none => query
  | some col =>
      if col = "" then query
      else if col ∈ modelCols then
        if ordering_params.direction = some "desc" then
          { query with orderClauses := query.orderClauses ++ [(col, .desc)] }
        else
          { query with orderClauses := query.orderClauses ++ [(col, .asc)] }
      else query

/-- A reflected database column: its name, the Python type of its SQL
type (`none` models a driver type whose `python_type` raises
NotImplementedError), its nullability, its client-side default value (the
`arg` of `col.default`, `none` when the column has no client default), its
server-side default expression, and whether it is part of the primary key. -/
structure ColumnDef where
  name : String
  pythonType : Option PyBase
  nullable : Bool
  default : Option PyVal
  serverDefault : Option String
  primaryKey : Bool
  deriving DecidableEq, Repr

/-- A reflected database table: its name and its columns in declaration
(reflection) order. -/
structure TableDef where
  name : String
  columns : List ColumnDef
  deriving DecidableEq, Repr

/-- `interfaces.get_col_type` (interfaces.py): the Python type of a
column.  A driver type that cannot be expressed falls back to `Any`
(returning early, before any widening); otherwise the base type is
widened to `T | None` when the column is nullable or has a client-side
or server-side default. -/
def get_col_type (col : ColumnDef) : PyType :=
  match col.pythonType with
  | none => .anyT
  | some b =>
      if col.nullable || col.default.isSome || col.serverDefault.isSome then
        .optionalT b
      else .baseT b

/-- Interpretation of a server default expression as a value of the
column's Python type, mirroring `col.type.python_type(str(server_default))`
in `interfaces.get_col_default`; `none` models the cast raising. -/
def castServerDefault : PyBase → String → Option PyVal
  | .intB, s => (s.toInt?).map PyVal.vint
  | .strB, s => some (.vstr s)
  | .boolB, _ => none

/-- `interfaces.get_col_default` (interfaces.py): make a good-faith
attempt to parse a literal value out of the server-side default, falling
back (on any failure, or when no server default exists) to the
client-side default, which itself defaults to `None`. -/
def get_col_default (col : ColumnDef) : PyVal :=
  let python_default : PyVal := (col.default).getD .vnone
  match col.serverDefault with
  | none => python_default
  | some s =>
      match col.pythonType with
      | none => python_default
      | some b =>
          match castServerDefault b s with
          | some v => v
          | none => python_default

/-- The default policy of one pydantic interface field: `required` models
the pydantic `...` (Ellipsis) marker, `withDefault v` a field default. -/
inductive FieldDefault where
  | required
  | withDefault (v : PyVal)
  deriving DecidableEq, Repr

/-- One pydantic interface field: name, type annotation, default policy. -/
abbrev FieldEntry := String × PyType × FieldDefault

/-- A pydantic interface: the generated model name and the ordered fields. -/
structure InterfaceDef where
  name : String
  fields : List FieldEntry
  deriving DecidableEq, Repr

/-- The field map built by `interfaces.create_interface`: one field per
column (in declaration order), typed by `get_col_type` and always given
a default value by `get_col_default` (possibly `None`). -/
def create_interface_fields (table : TableDef) : List FieldEntry :=
  table.columns.map fun col => (col.name, get_col_type col, .withDefault (get_col_default col))

/-- `interfaces.create_interface` (interfaces.py): builds the pydantic
model named after the table.  The translated code has no raising path —
the result type records that it always returns normally. -/
def create_interface (table : TableDef) : Except String InterfaceDef :=
  .ok { name := table.name, fields := create_interface_fields table }

/-- `models.create_db_interface`'s inner `get_column_type` (models.py):
the raw Python type of the column, falling back to `Any`; this variant
performs no nullable widening. -/
def get_column_type (col : ColumnDef) : PyType :=
  match col.pythonType with
  | none => .anyT
  | some b => .baseT b

/-- The field map built by `models.create_db_interface`: a field is given
the column's client-side default when one exists and is otherwise marked
required (`...`), regardless of nullability. -/
def create_db_interface_fields (table : TableDef) : List FieldEntry :=
  table.columns.map fun col =>
    (col.name, get_column_type col,
      match col.default with
      | some v => .withDefault v
      | none => .required)

/-- `models.create_db_interface` (models.py): the pydantic interface used
by the record handlers (handlers.py).  The translated code has no raising
path — the result type records that it always returns normally. -/
def create_db_interface (table : TableDef) : Except String InterfaceDef :=
  .ok { name := table.name, fields := create_db_interface_fields table }

/-- Whether a value belongs to a plain Python base class. -/
def baseAccepts : PyBase → PyVal → Bool
  | .intB, .vint _ => true
  | .strB, .vstr _ => true
  | .boolB, .vbool _ => true
  | _, _ => false

/-- Whether a pydantic type annotation accepts a given value (`Any`
accepts everything; `T | None` accepts `None` and values of `T`). -/
def typeAccepts : PyType → PyVal → Bool
  | .anyT, _ => true
  | .baseT b, v => baseAccepts b v
  | .optionalT b, v => v == .vnone || baseAccepts b v

/-- A JSON request body / database record: field name to value. -/
abbrev Record := List (String × PyVal)

/-- Pydantic validation of a request body against the interface fields:
a field present in the body keeps its (type-checked) value, an absent
field takes the field default, and an absent field without a default
fails validation.  Extra body keys are ignored. -/
def validateFields : List FieldEntry → Record → Option Record
  | [], _ => some []
  | (nm, ty, dflt) :: rest, body =>
      match body.lookup nm with
      | some v =>
          if typeAccepts ty v then
            (validateFields rest body).map ((nm, v) :: ·)
          else none
      | none =>
          match dflt with
          | .withDefault d => (validateFields rest body).map ((nm, d) :: ·)
          | .required => none

/-- A validated pydantic model instance: the values of every interface
field (in field order) together with the set of fields that were
explicitly present in the submitted body (pydantic's `__fields_set__`,
which drives `.dict(exclude_unset=True)`). -/
structure ValidatedData where
  values : Record
  providedKeys : List String
  deriving DecidableEq, Repr

/-- Validation of a body against an interface, producing the field values
and the explicitly-provided key set. -/
def validateIface (iface : InterfaceDef) (body : Record) : Option ValidatedData :=
  (validateFields iface.fields body).map fun vals =>
    { values := vals
      providedKeys := (iface.fields.filter fun f => (body.lookup f.1).isSome).map (·.1) }

/-- Pydantic `data.dict()`: every interface field with its value
(defaults filled in for fields absent from the body). -/
def dataDict (d : ValidatedData) : Record := d.values

/-- Pydantic `data.dict(exclude_unset=True)`: only the fields explicitly
present in the submitted body. -/
def dataDictExcludeUnset (d : ValidatedData) : Record :=
  d.values.filter fun kv => d.providedKeys.contains kv.1

/-- Python `setattr(record, key, value)` on an ORM record, modelled on the
association list: replace the first matching key, else append. -/
def setAttrRec (r : Record) (k : String) (v : PyVal) : Record :=
  assocSet r k v

/-- The `for key, value in ...: setattr(record, key, value)` loop shared
by the PUT and PATCH handlers. -/
def applyUpdates (r : Record) (kvs : Record) : Record :=
  kvs.foldl (fun acc kv => setAttrRec acc kv.1 kv.2) r

/-- The record mutation performed by `handlers.put_record` on the fetched
record: `setattr` for every item of `data.dict()`. -/
def put_record_update (record : Record) (data : ValidatedData) : Record :=
  applyUpdates record (dataDict data)

/-- The record mutation performed by `handlers.patch_record` on the
fetched record: `setattr` for every item of `data.dict(exclude_unset=True)`. -/
def patch_record_update (record : Record) (data : ValidatedData) : Record :=
  applyUpdates record (dataDictExcludeUnset data)

/-- The error outcomes a request handler step can surface: an HTTP error
response or a propagated database-layer error. -/
inductive HandlerError where
  | httpError (status : Nat) (detail : String)
  | dbError (msg : String)
  deriving DecidableEq, Repr

/-- SQLAlchemy `result.scalar_one_or_none()` over the materialized rows of
a query result: `None` for zero rows, the value for one row, and a raised
MultipleResultsFound error for more than one row. -/
def scalar_one_or_none {α : Type} : List α → Except String (Option α)
  | [] => .ok none
  | [v] => .ok (some v)
  | _ => .error "MultipleResultsFound"

/-- `queries.get_record_or_404` (queries.py): extract the scalar record
from a query result and raise HTTP 404 when `not record` — that is, when
the scalar is `None` or any other falsy value. -/
def get_record_or_404 (result : List PyVal) : Except HandlerError PyVal :=
  match scalar_one_or_none result with
  | .error e => .error (.dbError e)
  | .ok none => .error (.httpError 404 "Record not found")
  | .ok (some record) =>
      if record.truthy then .ok record
      else .error (.httpError 404 "Record not found")

/-- One URL path segment `{name}` for a path parameter. -/
def pathParamSegment (name : String) : String := "\x7b" ++ name ++ "\x7d"

/-- Python `"/".join(parts)`. -/
def joinSlash : List String → String
  | [] => ""
  | [s] => s
  | s :: rest => s ++ "/" ++ joinSlash rest

/-- The primary-key column names of a table in declaration (reflection)
order, i.e. `table.primary_key.columns` before any reordering. -/
def table_pk_names (table : TableDef) : List String :=
  (table.columns.filter (·.primaryKey)).map (·.name)

/-- The path-parameter portion of the single-record URL built by
`routers.create_table_router` (routers.py): the primary-key column names
are passed through Python `sorted(...)` — alphabetical order — and joined
into one `{a}/{b}/...` template. -/
def create_table_router_pk_path (table : TableDef) : String :=
  let pk_columns := List.insertionSort (fun a b : String => a ≤ b) (table_pk_names table)
  joinSlash (pk_columns.map pathParamSegment)

/-- Modelled from the spec (§3, §4.5): the same path template built from
the primary-key column names in declaration order, with no re-sorting.
Used only to compare against `create_table_router_pk_path`. -/
def declaration_order_pk_path (table : TableDef) : String :=
  joinSlash ((table_pk_names table).map pathParamSegment)

/-- Unfolding equation for association-list lookup at a cons cell. -/
theorem lookup_cons {β : Type} (k k0 : String) (v0 : β) (rest : List (String × β)) :
    ((k0, v0) :: rest).lookup k = if k = k0 then some v0 else rest.lookup k := by
  by_cases hk : k = k0
  · simp [List.lookup, hk]
  · simp [List.lookup, hk, beq_eq_false_iff_ne.mpr hk]

/-- Looking up the key just assigned returns the assigned value. -/
theorem lookup_assocSet_self {β : Type} (l : List (String × β)) (k : String) (v : β) :
    (assocSet l k v).lookup k = some v := by
  induction l with
  | nil => simp [assocSet, lookup_cons]
  | cons kv rest ih =>
      obtain ⟨k0, v0⟩ := kv
      by_cases hk : k0 = k
      · simp [assocSet, hk, lookup_cons]
      · rw [assocSet, if_neg hk, lookup_cons, if_neg (Ne.symm hk), ih]

/-- Assigning one key leaves the lookup of every other key unchanged. -/
theorem lookup_assocSet_ne {β : Type} (l : List (String × β)) {k k2 : String} (v : β)
    (hne : k ≠ k2) : (assocSet l k2 v).lookup k = l.lookup k := by
  induction l with
  | nil => simp [assocSet, lookup_cons, hne]
  | cons kv rest ih =>
      obtain ⟨k0, v0⟩ := kv
      by_cases hk : k0 = k2
      · subst hk
        rw [assocSet, if_pos rfl, lookup_cons, if_neg hne, lookup_cons, if_neg]
        intro h
        exact hne h
      · rw [assocSet, if_neg hk, lookup_cons, lookup_cons, ih]

/-- A successful association-list lookup comes from an actual entry. -/
theorem mem_of_lookup_eq_some {β : Type} {l : List (String × β)} {k : String} {v : β}
    (h : l.lookup k = some v) : (k, v) ∈ l := by
  induction l with
  | nil => simp [List.lookup] at h
  | cons kv rest ih =>
      obtain ⟨k0, v0⟩ := kv
      rw [lookup_cons] at h
      by_cases hk : k = k0
      · rw [if_pos hk] at h
        subst hk
        obtain rfl : v0 = v := Option.some.injEq .. ▸ h
        exact List.mem_cons_self _ _
      · rw [if_neg hk] at h
        exact List.mem_cons_of_mem _ (ih h)

/-- A key that heads some entry of an association list has a successful
lookup. -/
theorem lookup_isSome_of_mem_keys {β : Type} {l : List (String × β)} {k : String}
    (h : k ∈ l.map Prod.fst) : (l.lookup k).isSome := by
  induction l with
  | nil => simp at h
  | cons kv rest ih =>
      obtain ⟨k0, v0⟩ := kv
      rw [lookup_cons]
      by_cases hk : k = k0
      · rw [if_pos hk]
        rfl
      · rw [if_neg hk]
        refine ih ?_
        rcases List.mem_map.mp h with ⟨⟨ka, va⟩, hmem, hfst⟩
        rcases List.mem_cons.mp hmem with hhead | htail
        · exact absurd (by rw [← hfst, hhead]) hk
        · exact hfst ▸ List.mem_map_of_mem Prod.fst htail

/-- A key outside an update list is untouched by the update loop. -/
theorem lookup_applyUpdates_not_mem {r kvs : Record} {k : String}
    (hk : k ∉ kvs.map Prod.fst) : (applyUpdates r kvs).lookup k = r.lookup k := by
  induction kvs generalizing r with
  | nil => rfl
  | cons kv rest ih =>
      obtain ⟨k0, v0⟩ := kv
      have hk1 : k ≠ k0 := by
        intro h
        exact hk (by simp [h])
      have hk2 : k ∉ rest.map Prod.fst := by
        intro h
        exact hk (by simp [h])
      have step : applyUpdates r ((k0, v0) :: rest) = applyUpdates (setAttrRec r k0 v0) rest := rfl
      rw [step, ih hk2, setAttrRec, lookup_assocSet_ne _ _ hk1]

/-- Each entry of an update list with distinct keys ends up as the
looked-up value after the update loop. -/
theorem lookup_applyUpdates_mem {r kvs : Record} {k : String} {v : PyVal}
    (hnd : (kvs.map Prod.fst).Nodup) (hmem : (k, v) ∈ kvs) :
    (applyUpdates r kvs).lookup k = some v := by
  induction kvs generalizing r with
  | nil => simp at hmem
  | cons kv rest ih =>
      obtain ⟨k0, v0⟩ := kv
      rw [List.map_cons, List.nodup_cons] at hnd
      have step : applyUpdates r ((k0, v0) :: rest) = applyUpdates (setAttrRec r k0 v0) rest := rfl
      rcases List.mem_cons.mp hmem with hhead | htail
      · obtain ⟨hk, hv⟩ := Prod.mk.injEq .. ▸ hhead
        subst hk
        subst hv
        rw [step, lookup_applyUpdates_not_mem hnd.1, setAttrRec, lookup_assocSet_self]
      · rw [step]
        exact ih hnd.2 htail

/-- For non-negative bounds, the Python slice `l[s : s + k]` is drop
`s` then take `k`. -/
theorem pySlice_nonneg {α : Type} (l : List α) (s k : Int) (hs : 0 ≤ s) (hk : 0 ≤ k) :
    pySlice l s (s + k) = (l.drop s.toNat).take k.toNat := by
  have h1 : ¬ s < 0 := not_lt.mpr hs
  have h2 : ¬ s + k < 0 := by omega
  have htn : (s + k).toNat = s.toNat + k.toNat := by omega
  simp only [pySlice, pyNormIndex, if_neg h1, if_neg h2, htn]
  by_cases hcase : s.toNat ≤ l.length
  · rw [min_eq_left hcase]
    by_cases hkc : s.toNat + k.toNat ≤ l.length
    · rw [min_eq_left hkc, Nat.add_sub_cancel_left]
    · rw [min_eq_right (le_of_not_le hkc)]
      have hlen : (l.drop s.toNat).length = l.length - s.toNat := List.length_drop _ _
      rw [List.take_of_length_le (by omega), List.take_of_length_le (by omega)]
  · rw [min_eq_right (le_of_not_le hcase), List.drop_eq_nil_of_le (le_refl _),
      List.drop_eq_nil_of_le (le_of_not_le hcase)]
    simp

/-- Validated field values carry exactly the interface field names, in
field order. -/
theorem validateFields_keys {fl : List FieldEntry} {body : Record} {vals : Record}
    (h : validateFields fl body = some vals) : vals.map Prod.fst = fl.map (·.1) := by
  induction fl generalizing vals with
  | nil =>
      obtain rfl : ([] : Record) = vals := Option.some.injEq .. ▸ h
      rfl
  | cons f rest ih =>
      obtain ⟨nm, ty, df⟩ := f
      simp only [validateFields] at h
      rcases hb : body.lookup nm with _ | v
      · simp only [hb] at h
        rcases df with _ | d
        · simp at h
        · rcases Option.map_eq_some'.mp h with ⟨vals2, hv2, hcons⟩
          subst hcons
          simp [ih hv2]
      · simp only [hb] at h
        by_cases hacc : typeAccepts ty v = true
        · rw [if_pos hacc] at h
          rcases Option.map_eq_some'.mp h with ⟨vals2, hv2, hcons⟩
          subst hcons
          simp [ih hv2]
        · rw [if_neg hacc] at h
          simp at h

/-- A field explicitly present in the body validates to the submitted
value (under distinct field names). -/
theorem validateFields_lookup_provided {fl : List FieldEntry} {body vals : Record}
    {nm : String} {ty : PyType} {df : FieldDefault} {v : PyVal}
    (h : validateFields fl body = some vals) (hnd : (fl.map (·.1)).Nodup)
    (hmem : (nm, ty, df) ∈ fl) (hb : body.lookup nm = some v) :
    vals.lookup nm = some v := by
  induction fl generalizing vals with
  | nil => simp at hmem
  | cons f rest ih =>
      obtain ⟨nm0, ty0, df0⟩ := f
      rw [List.map_cons, List.nodup_cons] at hnd
      simp only [validateFields] at h
      rcases List.mem_cons.mp hmem with hhead | htail
      · injection hhead with h1 h2
        injection h2 with h2a h2b
        subst h1
        simp only [hb] at h
        have hacc : typeAccepts ty0 v = true := by
          by_contra hcon
          rw [if_neg hcon] at h
          simp at h
        rw [if_pos hacc] at h
        rcases Option.map_eq_some'.mp h with ⟨vals2, hv2, hcons⟩
        subst hcons
        rw [lookup_cons, if_pos rfl]
      · have hne : nm ≠ nm0 := by
          intro hcontra
          exact hnd.1 (hcontra ▸ List.mem_map.mpr ⟨(nm, ty, df), htail, rfl⟩)
        rcases hb0 : body.lookup nm0 with _ | v0
        · simp only [hb0] at h
          rcases df0 with _ | d0
          · simp at h
          · rcases Option.map_eq_some'.mp h with ⟨vals2, hv2, hcons⟩
            subst hcons
            rw [lookup_cons, if_neg hne]
            exact ih hv2 hnd.2 htail
        · simp only [hb0] at h
          by_cases hacc : typeAccepts ty0 v0 = true
          · rw [if_pos hacc] at h
            rcases Option.map_eq_some'.mp h with ⟨vals2, hv2, hcons⟩
            subst hcons
            rw [lookup_cons, if_neg hne]
            exact ih hv2 hnd.2 htail
          · rw [if_neg hacc] at h
            simp at h

/-- A field absent from the body validates to its declared default (and
must therefore have one) under distinct field names. -/
theorem validateFields_lookup_absent {fl : List FieldEntry} {body vals : Record}
    {nm : String} {ty : PyType} {df : FieldDefault}
    (h : validateFields fl body = some vals) (hnd : (fl.map (·.1)).Nodup)
    (hmem : (nm, ty, df) ∈ fl) (hb : body.lookup nm = none) :
    ∃ d, df = .withDefault d ∧ vals.lookup nm = some d := by
  induction fl generalizing vals with
  | nil => simp at hmem
  | cons f rest ih =>
      obtain ⟨nm0, ty0, df0⟩ := f
      rw [List.map_cons, List.nodup_cons] at hnd
      simp only [validateFields] at h
      rcases List.mem_cons.mp hmem with hhead | htail
      · injection hhead with h1 h2
        injection h2 with h2a h2b
        subst h1
        subst h2b
        simp only [hb] at h
        rcases df with _ | d
        · simp at h
        · rcases Option.map_eq_some'.mp h with ⟨vals2, hv2, hcons⟩
          subst hcons
          exact ⟨d, rfl, by rw [lookup_cons, if_pos rfl]⟩
      · have hne : nm ≠ nm0 := by
          intro hcontra
          exact hnd.1 (hcontra ▸ List.mem_map.mpr ⟨(nm, ty, df), htail, rfl⟩)
        rcases hb0 : body.lookup nm0 with _ | v0
        · simp only [hb0] at h
          rcases df0 with _ | d0
          · simp at h
          · rcases Option.map_eq_some'.mp h with ⟨vals2, hv2, hcons⟩
            subst hcons
            rcases ih hv2 hnd.2 htail with ⟨d, hdf, hl⟩
            exact ⟨d, hdf, by rw [lookup_cons, if_neg hne]; exact hl⟩
        · simp only [hb0] at h
          by_cases hacc : typeAccepts ty0 v0 = true
          · rw [if_pos hacc] at h
            rcases Option.map_eq_some'.mp h with ⟨vals2, hv2, hcons⟩
            subst hcons
            rcases ih hv2 hnd.2 htail with ⟨d, hdf, hl⟩
            exact ⟨d, hdf, by rw [lookup_cons, if_neg hne]; exact hl⟩
          · rw [if_neg hacc] at h
            simp at h

/-- The `id` column of the spec's scenario table: integer primary key,
not nullable, no defaults. -/
def idCol : ColumnDef :=
  { name := "id", pythonType := some .intB, nullable := false,
    default := none, serverDefault := none, primaryKey := true }

/-- The `name` column of the spec's scenario table: NOT NULL string with
no defaults. -/
def nameCol : ColumnDef :=
  { name := "name", pythonType := some .strB, nullable := false,
    default := none, serverDefault := none, primaryKey := false }

/-- The `age` column of the spec's scenario table: nullable integer with
no client-side or server-side default. -/
def ageCol : ColumnDef :=
  { name := "age", pythonType := some .intB, nullable := true,
    default := none, serverDefault := none, primaryKey := false }

/-- The spec's scenario table `users(id PK, name NOT NULL, age NULLABLE)`. -/
def usersTable : TableDef := { name := "users", columns := [idCol, nameCol, ageCol] }

/-- The pydantic interface the POST handler binds to the `users` table
(`create_db_interface(model)` in `handlers.create_post_record_handler`). -/
def usersInterface : InterfaceDef :=
  { name := "users", fields := create_db_interface_fields usersTable }

/-- A nullable column with no defaults whose driver type cannot be cast
to a Python type (`python_type` raises NotImplementedError). -/
def opaqueNullableCol : ColumnDef :=
  { name := "payload", pythonType := none, nullable := true,
    default := none, serverDefault := none, primaryKey := false }

/-- A table whose two primary-key columns are declared in the order
`b_id`, `a_id` — the reverse of their alphabetical order. -/
def reversedPkTable : TableDef :=
  { name := "pair_keys",
    columns :=
      [ { name := "b_id", pythonType := some .intB, nullable := false,
          default := none, serverDefault := none, primaryKey := true },
        { name := "a_id", pythonType := some .intB, nullable := false,
          default := none, serverDefault := none, primaryKey := true } ] }

/-- A reflected table with zero columns. -/
def zeroColumnTable : TableDef := { name := "empty_table", columns := [] }

/-- Claim C10: `get_record_or_404` raises the 404 not-found error exactly
when the extracted scalar value is falsy — so a single existing record
that scalarizes to a falsy value (such as `0` or `""`) is reported as not
found, a single truthy record is returned unchanged, and an empty result
is a 404 as well. -/
theorem get_record_or_404_truthiness (v : PyVal) :
    get_record_or_404 [v]
        = (if v.truthy then .ok v else .error (.httpError 404 "Record not found"))
    ∧ get_record_or_404 [] = .error (.httpError 404 "Record not found") := by
  constructor
  · by_cases hv : v.truthy = true <;>
      simp [get_record_or_404, scalar_one_or_none, hv]
  · rfl

/-- Claim C9 (counterexample): with an absent (`None`) `order_by`, the
ordering apply step of the live request path does not return the query
unmodified with X-Order-Applied "false" — it raises AttributeError at the
raw `response.headers["X-Order-By"] = order_by` write, because starlette
encodes the assigned header value. -/
theorem apply_ordering_params_absent_cex :
    apply_ordering_params (selectTable ["id"])
        { order_by := none, direction := some "asc" } []
      = .error "AttributeError: NoneType object has no attribute encode" :=
  rfl

/-- Claim C9 (amended): for every query and every parsed
ordering-parameter dictionary with `order_by` absent,
`params.apply_ordering_params` raises AttributeError at the X-Order-By
header write — it neither returns a query nor marks ordering as not
applied; the historical ORM-query variant
(`dependencies.apply_ordering_params`), which takes no response object
and writes no headers, does return the query unmodified with no ordering
clause attached. -/
theorem apply_ordering_params_absent_raises (q : SelectQuery) (dir : Option String)
    (response : Headers) (modelCols : List String) :
    apply_ordering_params q { order_by := none, direction := dir } response
        = .error "AttributeError: NoneType object has no attribute encode"
    ∧ dep_apply_ordering_params q modelCols { order_by := none, direction := dir } = q :=
  ⟨rfl, rfl⟩

/-- Claim C7 (counterexample): the widening rule is not an equivalence
over all columns — a nullable column whose driver type is unrepresentable
maps to plain `Any`, which is not the nullable widening of a base type,
even though the column is nullable. -/
theorem get_col_type_widening_cex :
    ¬ ((get_col_type opaqueNullableCol).isOptional = true ↔
        (opaqueNullableCol.nullable || opaqueNullableCol.default.isSome
          || opaqueNullableCol.serverDefault.isSome) = true) := by
  decide

/-- Claim C7 (amended): for every column whose native type is
representable as a Python type, the mapped type is the nullable widening
of the base type exactly when the column is nullable or has a client-side
or server-side default; unrepresentable types short-circuit to `Any`
before the widening rule runs. -/
theorem get_col_type_widening (col : ColumnDef) (b : PyBase)
    (ht : col.pythonType = some b) :
    ((get_col_type col).isOptional
        = (col.nullable || col.default.isSome || col.serverDefault.isSome))
    ∧ (get_col_type col = .optionalT b ∨ get_col_type col = .baseT b) := by
  simp only [get_col_type, ht]
  by_cases hw : (col.nullable || col.default.isSome || col.serverDefault.isSome) = true
  · simp [hw, PyType.isOptional]
  · simp only [Bool.not_eq_true] at hw
    simp [hw, PyType.isOptional]

/-- Witness for `get_col_type_widening` at the nullable `age` column. -/
theorem get_col_type_widening_witness :
    ((get_col_type ageCol).isOptional
        = (ageCol.nullable || ageCol.default.isSome || ageCol.serverDefault.isSome))
    ∧ (get_col_type ageCol = .optionalT .intB ∨ get_col_type ageCol = .baseT .intB) :=
  get_col_type_widening ageCol .intB rfl

/-- Claim C4 (counterexample): for a table whose primary-key columns are
declared as `b_id`, `a_id`, the router's path-parameter template is not
the declaration-order concatenation — `sorted(...)` reorders the names
alphabetically. -/
theorem create_table_router_pk_path_cex :
    create_table_router_pk_path reversedPkTable
      ≠ declaration_order_pk_path reversedPkTable := by
  have hle : ¬ ("b_id" ≤ "a_id") := by
    rw [String.le_iff_toList_le]
    decide
  have hsort : List.insertionSort (fun a b : String => a ≤ b) ["b_id", "a_id"]
      = ["a_id", "b_id"] := by
    simp [List.insertionSort, List.orderedInsert, hle]
  have hnames : table_pk_names reversedPkTable = ["b_id", "a_id"] := rfl
  simp only [create_table_router_pk_path, declaration_order_pk_path, hnames, hsort]
  decide

/-- Claim C4 (amended): the single-record URL path is one `{name}`
segment per primary-key column, but ordered by Python `sorted` —
alphabetically — over the declaration-order primary-key names (of which
it is a permutation), not in declaration order itself. -/
theorem create_table_router_pk_path_sorted (table : TableDef) :
    create_table_router_pk_path table
      = joinSlash ((List.insertionSort (fun a b : String => a ≤ b)
          (table_pk_names table)).map pathParamSegment)
    ∧ (List.insertionSort (fun a b : String => a ≤ b)
          (table_pk_names table)).Perm (table_pk_names table)
    ∧ List.Sorted (fun a b : String => a ≤ b)
        (List.insertionSort (fun a b : String => a ≤ b) (table_pk_names table)) :=
  ⟨rfl, List.perm_insertionSort _ _, List.sorted_insertionSort _ _⟩

/-- Claim C6 (counterexample): building either pydantic interface for a
zero-column table does not raise — both builders return an empty
interface normally. -/
theorem create_interface_zero_columns_cex :
    create_interface zeroColumnTable = .ok { name := "empty_table", fields := [] }
    ∧ create_db_interface zeroColumnTable = .ok { name := "empty_table", fields := [] } :=
  ⟨rfl, rfl⟩

/-- Claim C6 (amended): for every zero-column table, interface synthesis
returns an empty (zero-field) interface without any error; nothing fails
at startup. -/
theorem create_interface_zero_columns (t : TableDef) (hz : t.columns = []) :
    create_interface t = .ok { name := t.name, fields := [] }
    ∧ create_db_interface t = .ok { name := t.name, fields := [] } := by
  simp [create_interface, create_db_interface, create_interface_fields,
    create_db_interface_fields, hz]

/-- Witness for `create_interface_zero_columns` at the concrete empty table. -/
theorem create_interface_zero_columns_witness :
    create_interface zeroColumnTable = .ok { name := zeroColumnTable.name, fields := [] }
    ∧ create_db_interface zeroColumnTable
        = .ok { name := zeroColumnTable.name, fields := [] } :=
  create_interface_zero_columns zeroColumnTable rfl

/-- Claim C1 (counterexample): the LIST handler does not apply ordering
before pagination — at a concrete request the pipeline state differs from
the ordering-first pipeline, because `list_records` calls
`apply_pagination_params` on the base select first and the response
headers are therefore written pagination-first. -/
theorem list_records_pagination_first_cex :
    list_records_build ["id", "name"] { limit := some 2, offset := some 0 }
        { order_by := some "name", direction := some "asc" } []
      ≠ ordering_first_build ["id", "name"] { limit := some 2, offset := some 0 }
        { order_by := some "name", direction := some "asc" } [] := by
  intro h
  have h2 := congrArg Except.toOption h
  revert h2
  decide

/-- Claim C1 (amended): the LIST handler applies pagination to the base
select query first and ordering second; mapped onto the query component,
the handler pipeline nevertheless agrees with the ordering-first
pipeline — when the ordering step raises (absent `order_by` or
`direction`, through the starlette header encode) both pipelines raise
the same error, and otherwise both build the identical declarative
query, so whenever a query is built at all the paginated slice is taken
from the ordered result; only the response-header write order differs. -/
theorem list_records_query_commutes (cols : List String) (pg : PaginationParams)
    (op : OrderingParams) (response : Headers) :
    (list_records_build cols pg op response).map Prod.fst
      = (ordering_first_build cols pg op response).map Prod.fst := by
  rcases op with ⟨ob, dir⟩
  rcases ob with _ | col
  · rfl
  · rcases dir with _ | s
    · rfl
    · by_cases hl : pg.limit = some 0 ∨ pg.limit = none <;>
        by_cases hc : col ∈ cols <;>
        by_cases hd : s = "desc" <;>
          simp [list_records_build, ordering_first_build, apply_pagination_params,
            apply_ordering_params, headerSet, selectTable, hl, hc, hd,
            Except.map, bind, Except.bind, pure, Except.pure]

/-- Claim C3 (counterexample): the list-based pagination apply step
(dependencies.py) writes no response headers at all when the page number
is zero — the input list is returned and the headers stay empty, so no
total-count is reported. -/
theorem dep_pagination_page_zero_headers_cex :
    dep_apply_pagination_params [(1 : Int), 2, 3] { page := 0, per_page := 2 } []
        = .ok ([1, 2, 3], [])
    ∧ (([] : Headers).lookup "x-total-count") = none :=
  ⟨rfl, rfl⟩

/-- Claim C3 (amended): the Select-based pagination apply step (params.py)
writes the X-Pagination-Limit / X-Pagination-Offset / X-Pagination-Applied
headers on every outcome, including the disabled outcome (limit zero or
absent) where the query is returned unmodified; the list-based variant
(dependencies.py) instead writes its x-page / x-per-page / x-total-pages /
x-total-count headers only when pagination is actually applied — with page
zero it returns the input with the headers untouched, and with
`per_page <= 0` it raises ValueError before writing any header. -/
theorem pagination_headers_on_outcomes {α : Type}
    (q : SelectQuery) (pg : PaginationParams) (response : Headers)
    (items : List α) (dp : DepPaginationParams) (response2 : Headers) :
    ((apply_pagination_params q pg response).2.lookup "X-Pagination-Limit"
        = some (some (pyStrOfOptInt pg.limit)))
    ∧ ((apply_pagination_params q pg response).2.lookup "X-Pagination-Offset"
        = some (some (pyStrOfOptInt pg.offset)))
    ∧ ((apply_pagination_params q pg response).2.lookup "X-Pagination-Applied"
        = some (some (if pg.limit = some 0 ∨ pg.limit = none then "false" else "true")))
    ∧ (0 < dp.per_page → dp.page = 0 →
        dep_apply_pagination_params items dp response2 = .ok (items, response2))
    ∧ (dp.per_page ≤ 0 →
        dep_apply_pagination_params items dp response2
          = .error "The per_page argument must be greater than 0.") := by
  refine ⟨?_, ?_, ?_, ?_, ?_⟩
  · by_cases hl : pg.limit = some 0 ∨ pg.limit = none <;>
      simp only [apply_pagination_params, setHeader, if_pos, if_neg, hl, ite_true,
        ite_false, if_true, if_false] <;>
      rw [lookup_assocSet_ne _ _ (by decide), lookup_assocSet_ne _ _ (by decide),
        lookup_assocSet_self]
  · by_cases hl : pg.limit = some 0 ∨ pg.limit = none <;>
      simp only [apply_pagination_params, setHeader, hl, ite_true, ite_false] <;>
      rw [lookup_assocSet_ne _ _ (by decide), lookup_assocSet_self]
  · by_cases hl : pg.limit = some 0 ∨ pg.limit = none <;>
      simp only [apply_pagination_params, setHeader, hl, ite_true, ite_false] <;>
      rw [lookup_assocSet_self]
  · intro h1 h2
    simp only [dep_apply_pagination_params, if_neg (not_le.mpr h1), if_pos h2]
  · intro h1
    simp only [dep_apply_pagination_params, if_pos h1]

/-- Witness for `pagination_headers_on_outcomes`: the implications about
the list-based variant discharged at a zero page and at a non-positive
per-page value. -/
theorem pagination_headers_on_outcomes_witness :
    dep_apply_pagination_params [(7 : Int), 8] { page := 0, per_page := 3 } []
        = .ok ([7, 8], [])
    ∧ dep_apply_pagination_params [(7 : Int), 8] { page := 1, per_page := 0 } []
        = .error "The per_page argument must be greater than 0." :=
  ⟨(pagination_headers_on_outcomes (selectTable ["id"]) { limit := some 1, offset := some 0 }
      [] [(7 : Int), 8] { page := 0, per_page := 3 } []).2.2.2.1 (by decide) rfl,
    (pagination_headers_on_outcomes (selectTable ["id"]) { limit := some 1, offset := some 0 }
      [] [(7 : Int), 8] { page := 1, per_page := 0 } []).2.2.2.2 (by decide)⟩

/-- Boolean test for the `required` (`...`) default policy. -/
def FieldDefault.isRequiredB : FieldDefault → Bool
  | .required => true
  | .withDefault _ => false

/-- The declared default value of a field, when one exists. -/
def fieldDefaultValue : FieldDefault → Option PyVal
  | .required => none
  | .withDefault v => some v

/-- Specialization of the standard `contains`/membership equivalence to
string lists. -/
theorem list_contains_iff_mem (l : List String) (a : String) :
    l.contains a = true ↔ a ∈ l := by
  simp

/-- Claim C2 (counterexample): the create interface used by the POST
handler (`models.create_db_interface`) rejects the body
`{"name": "Bob"}` for `users(id PK, name NOT NULL, age NULLABLE)` —
validation fails because the nullable, default-less `age` (and the
default-less `id`) are marked required — so the request cannot succeed
with 201. -/
theorem post_users_name_only_cex :
    validateIface usersInterface [("name", .vstr "Bob")] = none := by
  rfl

/-- Claim C2 (amended): `create_db_interface` marks a field required
exactly when its column has no client-side default, regardless of
nullability; consequently for the `users` scenario both `{"name": "Bob"}`
(missing `id` and the nullable `age`) and `{}` (missing everything) fail
validation, while a body supplying all three columns validates. -/
theorem create_db_interface_required_iff_no_default (t : TableDef) :
    (((create_db_interface_fields t).zip t.columns).all fun p =>
        p.1.2.2.isRequiredB == p.2.default.isNone) = true
    ∧ validateIface usersInterface [] = none
    ∧ validateIface usersInterface
        [("id", .vint 1), ("name", .vstr "Bob"), ("age", .vint 30)]
        = some { values := [("id", .vint 1), ("name", .vstr "Bob"), ("age", .vint 30)],
                 providedKeys := ["id", "name", "age"] } := by
  refine ⟨?_, rfl, rfl⟩
  obtain ⟨n, cols⟩ := t
  simp only [create_db_interface_fields]
  induction cols with
  | nil => rfl
  | cons c cs ih =>
      simp only [List.map_cons, List.zip_cons_cons, List.all_cons] at *
      refine (Bool.and_eq_true ..).mpr ⟨?_, ih⟩
      rcases hcd : c.default with _ | d <;> simp [hcd, FieldDefault.isRequiredB]

/-- Modelled from the spec (§4.4, P7, P8): the slice of items belonging
to page `p` at `k` items per page — a negative `p` counts backward from
the last page (`-1` is the last page, resolving to page
`total_pages + p + 1`) and pages that do not exist are empty.  Used only
to compare against `dep_apply_pagination_params`. -/
def claimed_page_slice {α : Type} (items : List α) (p k : Int) : List α :=
  let tp : Int := ((items.length : Int) + k - 1) / k
  let rp : Int := if 0 < p then p else tp + p + 1
  if rp ≤ 0 then [] else (items.drop ((rp - 1) * k).toNat).take k.toNat

/-- Claim C5 (counterexample): for `items = [1,2,3,4,5]`, `page = -5`,
`per_page = 2` the list-based pagination apply step returns `[2, 3]` via
Python negative-index wraparound, although counting backward from the
last of the 3 pages, page `-5` does not exist and its slice is empty. -/
theorem dep_pagination_wraparound_cex :
    dep_apply_pagination_params [(1 : Int), 2, 3, 4, 5] { page := -5, per_page := 2 } []
      = .ok ([2, 3],
          [("x-page", some "-5"), ("x-per-page", some "2"),
            ("x-total-pages", some "3"), ("x-total-count", some "5")])
    ∧ claimed_page_slice [(1 : Int), 2, 3, 4, 5] (-5) 2 = [] := by
  constructor <;> rfl

/-- Claim C5 (amended): for every non-empty item list, page `p ≠ 0` with
`-total_pages ≤ p`, and `per_page k > 0`, the list-based pagination apply
step returns the page-`p` slice (negative `p` counting backward from the
last page) and reports x-total-count equal to the list length and
x-total-pages equal to `(length + k - 1) / k` — the ceiling of
`length / k`; pages below `-total_pages` are excluded because Python
slice wraparound returns unrelated slices there. -/
theorem dep_pagination_slicing {α : Type} (items : List α) (dp : DepPaginationParams)
    (response : Headers) (_hne : items ≠ []) (hk : 0 < dp.per_page) (hp : dp.page ≠ 0)
    (hrange : -(((items.length : Int) + dp.per_page - 1) / dp.per_page) ≤ dp.page) :
    ∃ hs : Headers,
      dep_apply_pagination_params items dp response
        = .ok (claimed_page_slice items dp.page dp.per_page, hs)
      ∧ hs.lookup "x-total-count" = some (some (toString ((items.length : Int))))
      ∧ hs.lookup "x-total-pages"
          = some (some (toString (((items.length : Int) + dp.per_page - 1) / dp.per_page))) := by
  have hk0 : ¬ dp.per_page ≤ 0 := not_le.mpr hk
  have hslice : claimed_page_slice items dp.page dp.per_page
      = pySlice items
          (if 0 < dp.page then (dp.page - 1) * dp.per_page
            else (((items.length : Int) + dp.per_page - 1) / dp.per_page + dp.page) * dp.per_page)
          ((if 0 < dp.page then (dp.page - 1) * dp.per_page
            else (((items.length : Int) + dp.per_page - 1) / dp.per_page + dp.page) * dp.per_page)
            + dp.per_page) := by
    simp only [claimed_page_slice]
    generalize htp : ((items.length : Int) + dp.per_page - 1) / dp.per_page = tp at hrange ⊢
    by_cases hpos : 0 < dp.page
    · rw [if_pos hpos, if_pos hpos, if_neg (by omega : ¬ dp.page ≤ 0),
        pySlice_nonneg items _ _ (mul_nonneg (by omega) (by omega)) (by omega)]
    · rw [if_neg hpos, if_neg hpos, if_neg (by omega : ¬ tp + dp.page + 1 ≤ 0),
        pySlice_nonneg items _ _ (mul_nonneg (by omega) (by omega)) (by omega)]
      have harith : tp + dp.page + 1 - 1 = tp + dp.page := by ring
      rw [harith]
  simp only [dep_apply_pagination_params, if_neg hk0, if_neg hp]
  refine ⟨setHeader (setHeader (setHeader (setHeader response "x-page"
      (some (toString dp.page))) "x-per-page" (some (toString dp.per_page)))
      "x-total-pages" (some (toString (((items.length : Int) + dp.per_page - 1) / dp.per_page))))
      "x-total-count" (some (toString ((items.length : Int)))), ?_, ?_, ?_⟩
  · rw [hslice]
  · simp only [setHeader]
    rw [lookup_assocSet_self]
  · simp only [setHeader]
    rw [lookup_assocSet_ne _ _ (by decide), lookup_assocSet_self]

/-- Witness for `dep_pagination_slicing`: the spec's P7 instance
(`page = 2, per_page = 2` on `[1,2,3,4,5]`) and P8 instance
(`page = -1, per_page = 2`), with every hypothesis discharged. -/
theorem dep_pagination_slicing_witness :
    (∃ hs : Headers,
      dep_apply_pagination_params [(1 : Int), 2, 3, 4, 5] { page := 2, per_page := 2 } []
        = .ok (claimed_page_slice [(1 : Int), 2, 3, 4, 5] 2 2, hs)
      ∧ hs.lookup "x-total-count"
          = some (some (toString (([(1 : Int), 2, 3, 4, 5].length : Int))))
      ∧ hs.lookup "x-total-pages"
          = some (some (toString ((([(1 : Int), 2, 3, 4, 5].length : Int) + 2 - 1) / 2))))
    ∧ (∃ hs : Headers,
      dep_apply_pagination_params [(1 : Int), 2, 3, 4, 5] { page := -1, per_page := 2 } []
        = .ok (claimed_page_slice [(1 : Int), 2, 3, 4, 5] (-1) 2, hs)
      ∧ hs.lookup "x-total-count"
          = some (some (toString (([(1 : Int), 2, 3, 4, 5].length : Int))))
      ∧ hs.lookup "x-total-pages"
          = some (some (toString ((([(1 : Int), 2, 3, 4, 5].length : Int) + 2 - 1) / 2)))) :=
  ⟨dep_pagination_slicing [(1 : Int), 2, 3, 4, 5] { page := 2, per_page := 2 } []
      (by decide) (by decide) (by decide) (by decide),
    dep_pagination_slicing [(1 : Int), 2, 3, 4, 5] { page := -1, per_page := 2 } []
      (by decide) (by decide) (by decide) (by decide)⟩

/-- An interface with a required `name` field and a nullable `age` field
defaulting to `None`, used to instantiate the PATCH/PUT frame theorem at
the spec's P10 scenario. -/
def p10Interface : InterfaceDef :=
  { name := "p10",
    fields := [("name", .baseT .strB, .required),
               ("age", .optionalT .intB, .withDefault .vnone)] }

/-- The P10 record `{name: "old", age: 7}`. -/
def p10Record : Record := [("name", .vstr "old"), ("age", .vint 7)]

/-- The P10 request body `{"name": "x"}`. -/
def p10Body : Record := [("name", .vstr "x")]

/-- The validated P10 body: `age` filled from its default, only `name`
explicitly provided. -/
def p10Data : ValidatedData :=
  { values := [("name", .vstr "x"), ("age", .vnone)], providedKeys := ["name"] }

/-- Claim C8: for every interface (with distinct field names), validated
request body and existing record, the PATCH handler writes exactly the
fields explicitly present in the submitted payload — every record field
outside the provided set keeps its value, and every provided field takes
the payload value — while the PUT handler overwrites every field of the
interface with the validated value, which for fields absent from the
payload is the field's schema default. -/
theorem patch_writes_provided_put_overwrites_all
    (iface : InterfaceDef) (body record : Record) (data : ValidatedData)
    (hv : validateIface iface body = some data)
    (hnd : (iface.fields.map (·.1)).Nodup) :
    ((record.filter fun kv => !(data.providedKeys.contains kv.1)).all fun kv =>
        (patch_record_update record data).lookup kv.1 == record.lookup kv.1) = true
    ∧ (iface.fields.all fun f =>
        !(data.providedKeys.contains f.1)
          || ((patch_record_update record data).lookup f.1 == body.lookup f.1)) = true
    ∧ (iface.fields.all fun f =>
        (put_record_update record data).lookup f.1 == data.values.lookup f.1) = true
    ∧ (iface.fields.all fun f =>
        data.providedKeys.contains f.1
          || ((put_record_update record data).lookup f.1
                == fieldDefaultValue f.2.2)) = true := by
  rcases Option.map_eq_some'.mp hv with ⟨vals, hvf, hdata⟩
  subst hdata
  have hkeys : vals.map Prod.fst = iface.fields.map (·.1) := validateFields_keys hvf
  have hvalsnd : (vals.map Prod.fst).Nodup := by rw [hkeys]; exact hnd
  -- membership characterization of the provided-key set
  have hprov : ∀ k : String,
      k ∈ (iface.fields.filter fun f => (body.lookup f.1).isSome).map (·.1)
        ↔ ∃ f, f ∈ iface.fields ∧ f.1 = k ∧ (body.lookup k).isSome := by
    intro k
    constructor
    · intro hmem
      rcases List.mem_map.mp hmem with ⟨f, hf, hfk⟩
      rcases List.mem_filter.mp hf with ⟨hfin, hfsome⟩
      exact ⟨f, hfin, hfk, hfk ▸ hfsome⟩
    · rintro ⟨f, hfin, hfk, hsome⟩
      exact List.mem_map.mpr ⟨f, List.mem_filter.mpr ⟨hfin, hfk ▸ hsome⟩, hfk⟩
  -- the key set of the exclude-unset dictionary is inside the provided set
  have hpatchkeys : ∀ k : String,
      k ∈ (dataDictExcludeUnset ⟨vals, (iface.fields.filter fun f =>
          (body.lookup f.1).isSome).map (·.1)⟩).map Prod.fst →
      k ∈ (iface.fields.filter fun f => (body.lookup f.1).isSome).map (·.1) := by
    intro k hmem
    rcases List.mem_map.mp hmem with ⟨kv, hkv, hkvk⟩
    rcases List.mem_filter.mp hkv with ⟨_, hcont⟩
    exact hkvk ▸ (list_contains_iff_mem ..).mp hcont
  refine ⟨?_, ?_, ?_, ?_⟩
  · -- PATCH: fields outside the provided set are untouched
    rw [List.all_eq_true]
    intro kv hkv
    rcases List.mem_filter.mp hkv with ⟨hin, hnc⟩
    rw [Bool.not_eq_true'] at hnc
    rw [beq_iff_eq]
    refine lookup_applyUpdates_not_mem ?_
    intro hmem
    have hcont := (list_contains_iff_mem ..).mpr (hpatchkeys kv.1 hmem)
    rw [hnc] at hcont
    exact Bool.false_ne_true hcont
  · -- PATCH: provided fields take the payload value
    rw [List.all_eq_true]
    intro f hf
    by_cases hc : ((iface.fields.filter fun f => (body.lookup f.1).isSome).map (·.1)).contains f.1 = true
    · rcases (hprov f.1).mp ((list_contains_iff_mem ..).mp hc) with ⟨g, hgin, hgk, hsome⟩
      rcases Option.isSome_iff_exists.mp hsome with ⟨v, hvsome⟩
      have hlk : vals.lookup f.1 = some v :=
        validateFields_lookup_provided hvf hnd hf hvsome
      have hmemv : (f.1, v) ∈ dataDictExcludeUnset ⟨vals, (iface.fields.filter fun f =>
          (body.lookup f.1).isSome).map (·.1)⟩ :=
        List.mem_filter.mpr ⟨mem_of_lookup_eq_some hlk, hc⟩
      have hsubnd : ((dataDictExcludeUnset ⟨vals, (iface.fields.filter fun f =>
          (body.lookup f.1).isSome).map (·.1)⟩).map Prod.fst).Nodup :=
        List.Sublist.nodup (List.Sublist.map Prod.fst (List.filter_sublist _)) hvalsnd
      have hplk : (patch_record_update record ⟨vals, (iface.fields.filter fun f =>
          (body.lookup f.1).isSome).map (·.1)⟩).lookup f.1 = some v :=
        lookup_applyUpdates_mem hsubnd hmemv
      rw [hplk, hvsome]
      simp
    · rw [Bool.not_eq_true] at hc
      rw [hc]
      simp
  · -- PUT: every interface field is overwritten with the validated value
    rw [List.all_eq_true]
    intro f hf
    have hfk : f.1 ∈ vals.map Prod.fst := by
      rw [hkeys]
      exact List.mem_map.mpr ⟨f, hf, rfl⟩
    rcases Option.isSome_iff_exists.mp (lookup_isSome_of_mem_keys hfk) with ⟨v, hvsome⟩
    have hplk : (put_record_update record ⟨vals, (iface.fields.filter fun f =>
        (body.lookup f.1).isSome).map (·.1)⟩).lookup f.1 = some v :=
      lookup_applyUpdates_mem hvalsnd (mem_of_lookup_eq_some hvsome)
    rw [hplk, hvsome]
    simp
  · -- PUT: fields absent from the payload are set to their schema default
    rw [List.all_eq_true]
    intro f hf
    by_cases hc : ((iface.fields.filter fun f => (body.lookup f.1).isSome).map (·.1)).contains f.1 = true
    · rw [hc]
      simp
    · have hbn : body.lookup f.1 = none := by
        rcases hb : body.lookup f.1 with _ | v
        · rfl
        · exfalso
          have hmem2 : f.1 ∈ (iface.fields.filter fun f => (body.lookup f.1).isSome).map (·.1) :=
            (hprov f.1).mpr ⟨f, hf, rfl, by rw [hb]; rfl⟩
          exact hc ((list_contains_iff_mem ..).mpr hmem2)
      rcases validateFields_lookup_absent hvf hnd hf hbn with ⟨d, hdf, hlk⟩
      have hplk : (put_record_update record ⟨vals, (iface.fields.filter fun f =>
          (body.lookup f.1).isSome).map (·.1)⟩).lookup f.1 = some d :=
        lookup_applyUpdates_mem hvalsnd (mem_of_lookup_eq_some hlk)
      rw [hplk, hdf]
      simp [fieldDefaultValue]

/-- Witness for `patch_writes_provided_put_overwrites_all` at the spec's
P10 scenario: PATCH of `{"name": "x"}` on `{name: "old", age: 7}` leaves
`age` untouched while PUT resets it to the schema default `None`. -/
theorem patch_writes_provided_put_overwrites_all_witness :
    ((p10Record.filter fun kv => !(p10Data.providedKeys.contains kv.1)).all fun kv =>
        (patch_record_update p10Record p10Data).lookup kv.1 == p10Record.lookup kv.1) = true
    ∧ (p10Interface.fields.all fun f =>
        !(p10Data.providedKeys.contains f.1)
          || ((patch_record_update p10Record p10Data).lookup f.1 == p10Body.lookup f.1)) = true
    ∧ (p10Interface.fields.all fun f =>
        (put_record_update p10Record p10Data).lookup f.1 == p10Data.values.lookup f.1) = true
    ∧ (p10Interface.fields.all fun f =>
        p10Data.providedKeys.contains f.1
          || ((put_record_update p10Record p10Data).lookup f.1
                == fieldDefaultValue f.2.2)) = true :=
  patch_writes_provided_put_overwrites_all p10Interface p10Body p10Record p10Data rfl
    (by decide)

end AutoRest
